import Mathlib

/-!
Shallow embedding of the adaptive personality-testing engine of
simple_backend.py: the 2PL IRT model, the Newton-Raphson ability
estimator, the live item-selection and stopping logic of the
get_current_question and submit_answer endpoints, and the session
state they mutate.  Machine floats of the source are modelled as exact
reals; the raw Likert response is modelled as an integer.
-/

open scoped Classical

noncomputable section

/-- The five trait identifiers (PERSONALITY_DIMENSIONS of the source). -/
inductive Dimension
  | extraversion
  | agreeableness
  | conscientiousness
  | neuroticism
  | openness
  deriving DecidableEq, Fintype

/-- Iteration order of the completion loop in submit_answer
(PERSONALITY_DIMENSIONS, simple_backend.py lines 69-75). -/
def PERSONALITY_DIMENSIONS : List Dimension :=
  [.extraversion, .agreeableness, .conscientiousness, .neuroticism, .openness]

/-- Successor of a dimension in the key order of questions_db
(openness, conscientiousness, extraversion, agreeableness, neuroticism),
the order used by get_current_question to advance the current dimension. -/
def next_dimension : Dimension → Option Dimension
  | .openness => some .conscientiousness
  | .conscientiousness => some .extraversion
  | .extraversion => some .agreeableness
  | .agreeableness => some .neuroticism
  | .neuroticism => none

/-- IRTParameters (simple_backend.py lines 78-86). -/
structure IRTParameters where
  max_questions : ℕ
  min_questions : ℕ
  max_per_dimension : ℕ
  min_per_dimension : ℕ
  target_se : ℝ
  min_theta : ℝ
  max_theta : ℝ

/-- The configured parameter values of the source. -/
def irtParams : IRTParameters :=
  { max_questions := 50
    min_questions := 25
    max_per_dimension := 10
    min_per_dimension := 5
    target_se := 0.3
    min_theta := -3
    max_theta := 3 }

/-- An item of a session question pool (entries of generated_questions). -/
structure GeneratedQuestion where
  question_id : String
  difficulty : ℝ
  discrimination : ℝ
  reverse_scored : Bool

/-- A recorded answer (entries of questions_answered, built in submit_answer). -/
structure AnsweredQuestion where
  question_id : String
  response : ℤ
  difficulty : ℝ
  discrimination : ℝ
  reverse_scored : Bool

/-- The engine-relevant fields of a session dictionary. -/
structure Session where
  status : String
  current_dimension : Dimension
  questions_answered : Dimension → List AnsweredQuestion
  theta : Dimension → ℝ
  se : Dimension → ℝ
  dimension_question_count : Dimension → ℕ
  generated_questions : Dimension → List GeneratedQuestion
  total_questions_answered : ℕ

/-- Fresh session state produced at session creation
(simple_backend.py lines 936-954): status active, current dimension
openness, empty histories, theta 0, se 1. -/
def create_session_state (pools : Dimension → List GeneratedQuestion) : Session :=
  { status := "active"
    current_dimension := .openness
    questions_answered := fun _ => []
    theta := fun _ => 0
    se := fun _ => 1
    dimension_question_count := fun _ => 0
    generated_questions := pools
    total_questions_answered := 0 }

/-- AdaptiveTestEngine.calculate_item_information (lines 568-578):
z = a (theta - b), p = 1 / (1 + exp (-z)), information = a^2 p (1 - p).
In exact real arithmetic the body is total, so the except branch of the
source (fallback 0.1) is unreachable and is not modelled. -/
def calculate_item_information (theta difficulty discrimination : ℝ) : ℝ :=
  let z := discrimination * (theta - difficulty)
  let p := 1 / (1 + Real.exp (-z))
  let q := 1 - p
  discrimination ^ 2 * p * q

/-- The factor p (1 - p) of the information function as a function of
z = a (theta - b): exp (-z) / (1 + exp (-z)) ^ 2.  Used to analyse the
shape of calculate_item_information. -/
def logistic_kernel (z : ℝ) : ℝ :=
  Real.exp (-z) / (1 + Real.exp (-z)) ^ 2

/-- Score function accumulated by the estimation loop of estimate_theta:
sum of a_i * (u_i - p_i) over the zipped response triples. -/
def likelihood_derivative (theta : ℝ) (triples : List (ℕ × ℝ × ℝ)) : ℝ :=
  triples.foldl
    (fun acc t =>
      acc + t.2.2 * ((t.1 : ℝ) - 1 / (1 + Real.exp (-(t.2.2 * (theta - t.2.1)))))) 0

/-- Observed information accumulated by the estimation loop of
estimate_theta: sum of a_i^2 p_i (1 - p_i). -/
def information_sum (theta : ℝ) (triples : List (ℕ × ℝ × ℝ)) : ℝ :=
  triples.foldl
    (fun acc t =>
      acc + t.2.2 ^ 2 * (1 / (1 + Real.exp (-(t.2.2 * (theta - t.2.1))))) *
        (1 - 1 / (1 + Real.exp (-(t.2.2 * (theta - t.2.1)))))) 0

/-- Clamp of the Newton-Raphson update into the configured bounds:
max(min_theta, min(max_theta, x)). -/
def clamp_theta (x : ℝ) : ℝ :=
  max irtParams.min_theta (min irtParams.max_theta x)

/-- The Newton-Raphson loop of estimate_theta (lines 585-615), with the
remaining iteration count as fuel (the source runs range(50)).  Each
iteration computes the score S and the information F at the current
theta; if F > 0 it forms theta + S / F, breaks with the old theta when
the step is below 0.001, and otherwise continues with the clamped
update; if F <= 0 it breaks.  The second component is the information
value of the last executed iteration, used for the standard error. -/
def newton_loop (triples : List (ℕ × ℝ × ℝ)) : ℕ → ℝ → ℝ → ℝ × ℝ
  | 0, theta, lastF => (theta, lastF)
  | n + 1, theta, _ =>
    let S := likelihood_derivative theta triples
    let F := information_sum theta triples
    if 0 < F then
      let thetaNew := theta + S / F
      if |thetaNew - theta| < 0.001 then (theta, F)
      else newton_loop triples n (clamp_theta thetaNew) F
    else (theta, F)

/-- AdaptiveTestEngine.estimate_theta (lines 580-620).  An empty
response list returns the prior (0, 1) before the loop; otherwise the
loop runs with at most 50 iterations from theta = 0 and the standard
error is 1 / sqrt (max F 0.1).  All call sites pass three lists of
equal length, so zipping loses nothing. -/
def estimate_theta (responses : List ℕ) (difficulties discriminations : List ℝ) : ℝ × ℝ :=
  if responses = [] then (0, 1)
  else
    let triples := responses.zip (difficulties.zip discriminations)
    let r := newton_loop triples 50 0 0
    (r.1, 1 / Real.sqrt (max r.2 0.1))

/-- AdaptiveTestEngine.should_stop_testing (lines 650-668), a method of
the engine that is never invoked by any endpoint: the operative stopping
logic is inlined in submit_answer.  It stops when se <= target_se, or
the dimension count reached max_per_dimension, or the total reached
max_questions; both remaining branches return False. -/
def should_stop_testing (se : ℝ) (num_questions : ℕ)
    (dimension_questions : List AnsweredQuestion) : Prop :=
  se ≤ irtParams.target_se ∨
    irtParams.max_per_dimension ≤ dimension_questions.length ∨
    irtParams.max_questions ≤ num_questions

/-- The live per-dimension needs-more-questions condition of
submit_answer (lines 1295-1299): count < min_per_dimension, or se above
target_se while count < max_per_dimension. -/
def dimension_needs_more (count : ℕ) (se : ℝ) : Prop :=
  count < irtParams.min_per_dimension ∨
    (irtParams.target_se < se ∧ count < irtParams.max_per_dimension)

/-- The completion condition evaluated by submit_answer after updating
the session (lines 1288-1303): total answered at least max_questions, or
no dimension needs more questions. -/
def global_completion (s : Session) : Prop :=
  irtParams.max_questions ≤ s.total_questions_answered ∨
    ∀ dim ∈ PERSONALITY_DIMENSIONS,
      ¬ dimension_needs_more (s.questions_answered dim).length (s.se dim)

/-- The completion predicate in the wording of the specification: total
at least max_questions, or every dimension has count at least
min_per_dimension and (se at most target_se or count at least
max_per_dimension).  Stated for comparison with global_completion. -/
def global_completion_spec (s : Session) : Prop :=
  irtParams.max_questions ≤ s.total_questions_answered ∨
    ∀ dim ∈ PERSONALITY_DIMENSIONS,
      irtParams.min_per_dimension ≤ (s.questions_answered dim).length ∧
        (s.se dim ≤ irtParams.target_se ∨
          irtParams.max_per_dimension ≤ (s.questions_answered dim).length)

/-- Identifiers already answered in a dimension (answered_ids of
get_current_question, line 1014). -/
def answered_ids (s : Session) (d : Dimension) : List String :=
  (s.questions_answered d).map (fun aq => aq.question_id)

/-- Remaining pool of the current dimension (available_questions of
get_current_question, line 1017): generated questions whose identifier
is not among the answered identifiers. -/
def available_questions (s : Session) : List GeneratedQuestion :=
  (s.generated_questions s.current_dimension).filter
    (fun q => !((answered_ids s s.current_dimension).contains q.question_id))

/-- Medium-difficulty subset used for the random first item of a
dimension (line 1023): difficulty within [-0.5, 0.5]. -/
def medium_questions (l : List GeneratedQuestion) : List GeneratedQuestion :=
  l.filter (fun q => decide (-0.5 ≤ q.difficulty ∧ q.difficulty ≤ 0.5))

/-- Candidate set of the randomized first-item branch of
get_current_question (lines 1021-1026): the medium-difficulty subset of
the remaining pool when nonempty, otherwise the whole remaining pool.
The random draw itself is not modelled; any returned item is a member
of this list. -/
def first_item_candidates (s : Session) : List GeneratedQuestion :=
  let available := available_questions s
  let medium := medium_questions available
  if medium = [] then available else medium

/-- One step of the fold implementing the Python builtin min with a key
function: keep the incumbent unless the new element is strictly
smaller, so the first minimal element wins. -/
def pymin_step {α : Type} (key : α → ℝ) (best q : α) : α :=
  if key q < key best then q else best

/-- The Python builtin min with a key function: none on the empty list,
otherwise the fold of pymin_step over the tail started at the head. -/
def pymin_by {α : Type} (key : α → ℝ) : List α → Option α
  | [] => none
  | x :: xs => some (xs.foldl (pymin_step key) x)

/-- The adaptive selection branch of get_current_question (line 1030),
taken when the dimension already has answered questions: the remaining
item whose difficulty is closest to the current theta, first one on
ties (Python min returns the first minimal element). -/
def adaptive_next_question (s : Session) : Option GeneratedQuestion :=
  pymin_by (fun q => |q.difficulty - s.theta s.current_dimension|)
    (available_questions s)

/-- The session mutation performed by get_current_question before
selecting an item (lines 999-1011): if the count of the current
dimension reached max_per_dimension, advance to the next dimension in
questions_db order, or mark the session completed when the current
dimension is the last one.  No other field is touched by the endpoint. -/
def get_current_question_state (s : Session) : Session :=
  if irtParams.max_per_dimension ≤ s.dimension_question_count s.current_dimension then
    match next_dimension s.current_dimension with
    | some d => { s with current_dimension := d }
    | none => { s with status := "completed" }
  else s

/-- The single pass of submit_answer (lines 1263-1275) that turns the
accumulated answered list into the three estimator inputs: for every
record the raw response is replaced by 6 - response when the item is
reverse scored, the result is binarized at the threshold 4, and the
stored difficulty and discrimination are collected. -/
def extract_step (acc : List ℕ × List ℝ × List ℝ) (aq : AnsweredQuestion) :
    List ℕ × List ℝ × List ℝ :=
  let rv : ℤ := if aq.reverse_scored then 6 - aq.response else aq.response
  (acc.1 ++ [if 4 ≤ rv then 1 else 0],
    acc.2.1 ++ [aq.difficulty],
    acc.2.2 ++ [aq.discrimination])

/-- The fold of extract_step over the answered history started from
three empty lists, exactly as the source loop fills its three lists. -/
def extract_irt_inputs (l : List AnsweredQuestion) : List ℕ × List ℝ × List ℝ :=
  l.foldl extract_step ([], [], [])

/-- The binary endorsement outcome in the wording of the specification:
reverse-map the raw response via 6 - response exactly when the item is
reverse scored, then map to 1 when the value is at least 4 and to 0
otherwise.  Stated for comparison with extract_irt_inputs. -/
def spec_binary_outcome (aq : AnsweredQuestion) : ℕ :=
  let v : ℤ := if aq.reverse_scored then 6 - aq.response else aq.response
  if 4 ≤ v then 1 else 0

/-- The answered_question record built by submit_answer (lines
1259-1266): identifier, raw response, and the item parameters copied
from the pool entry at answer time. -/
def answered_record (q : GeneratedQuestion) (resp : ℤ) : AnsweredQuestion :=
  { question_id := q.question_id
    response := resp
    difficulty := q.difficulty
    discrimination := q.discrimination
    reverse_scored := q.reverse_scored }

/-- The state update of submit_answer once the submitted question was
found in the pool (lines 1259-1286): append the answered record to the
current dimension, refresh the count, re-estimate theta and se from the
full accumulated history, and increment the total counter. -/
def updated_session (s : Session) (q : GeneratedQuestion) (resp : ℤ) : Session :=
  let d := s.current_dimension
  let answered := s.questions_answered d ++ [answered_record q resp]
  let inputs := extract_irt_inputs answered
  let est := estimate_theta inputs.1 inputs.2.1 inputs.2.2
  { s with
    questions_answered := Function.update s.questions_answered d answered
    dimension_question_count := Function.update s.dimension_question_count d answered.length
    theta := Function.update s.theta d est.1
    se := Function.update s.se d est.2
    total_questions_answered := s.total_questions_answered + 1 }

/-- Full effect of a found submission (lines 1288-1305): after the state
update, set the status to completed exactly when the completion
condition holds on the updated state; otherwise the status is left as
it was.  The endpoint performs no status check before mutating. -/
def submit_answer_core (s : Session) (q : GeneratedQuestion) (resp : ℤ) : Session :=
  let s2 := updated_session s q resp
  { s2 with status := if global_completion s2 then "completed" else s2.status }

/-- The submit_answer endpoint (lines 1220-1317): look up the submitted
identifier in the generated questions of the current dimension (first
match of the source loop); on failure raise 404 without mutating, on
success perform the state update. -/
def submit_answer (s : Session) (qid : String) (resp : ℤ) : Option Session :=
  ((s.generated_questions s.current_dimension).find?
      (fun q => q.question_id == qid)).map
    (fun q => submit_answer_core s q resp)

/-- A concrete pool item used by witnesses and counterexamples. -/
def wQ1 : GeneratedQuestion :=
  { question_id := "o1", difficulty := 0, discrimination := 1, reverse_scored := false }

/-- A second concrete pool item. -/
def wQ2 : GeneratedQuestion :=
  { question_id := "o2", difficulty := 1, discrimination := 1, reverse_scored := false }

/-- The recorded answer of wQ1 with raw response 5. -/
def wRecord1 : AnsweredQuestion :=
  { question_id := "o1", response := 5, difficulty := 0, discrimination := 1,
    reverse_scored := false }

/-- A concrete active session: current dimension openness with pool
[wQ1, wQ2], wQ1 already answered, every other dimension untouched. -/
def wSession : Session :=
  { status := "active"
    current_dimension := .openness
    questions_answered := fun d => match d with
      | .openness => [wRecord1]
      | _ => []
    theta := fun _ => 0
    se := fun _ => 1
    dimension_question_count := fun d => match d with
      | .openness => 1
      | _ => 0
    generated_questions := fun d => match d with
      | .openness => [wQ1, wQ2]
      | _ => []
    total_questions_answered := 1 }

/-- The same concrete session with status already completed. -/
def compSession : Session :=
  { wSession with status := "completed" }

end

/-! Helper lemmas. -/

/-- Negation of the live needs-more condition in conjunction form. -/
lemma not_dimension_needs_more_iff (count : ℕ) (se : ℝ) :
    ¬ dimension_needs_more count se ↔
      (irtParams.min_per_dimension ≤ count ∧
        (se ≤ irtParams.target_se ∨ irtParams.max_per_dimension ≤ count)) := by
  unfold dimension_needs_more
  push_neg
  constructor
  · rintro ⟨h1, h2⟩
    exact ⟨h1, or_iff_not_imp_left.mpr (fun hn => h2 (not_le.mp hn))⟩
  · rintro ⟨h1, h2⟩
    exact ⟨h1, fun hlt => h2.resolve_left (not_le.mpr hlt)⟩

/-- The fold of extract_step concatenates the three per-record images
onto the accumulator. -/
lemma foldl_extract_step (l : List AnsweredQuestion) :
    ∀ acc : List ℕ × List ℝ × List ℝ,
      l.foldl extract_step acc =
        (acc.1 ++ l.map spec_binary_outcome,
          acc.2.1 ++ l.map (fun aq => aq.difficulty),
          acc.2.2 ++ l.map (fun aq => aq.discrimination)) := by
  induction l with
  | nil => intro acc; simp
  | cons aq l ih =>
    intro acc
    rw [List.foldl_cons, ih]
    simp [extract_step, spec_binary_outcome]

/-- The single-pass extraction of submit_answer agrees with the
per-record maps. -/
lemma extract_irt_inputs_eq_maps (l : List AnsweredQuestion) :
    extract_irt_inputs l =
      (l.map spec_binary_outcome,
        l.map (fun aq => aq.difficulty),
        l.map (fun aq => aq.discrimination)) := by
  unfold extract_irt_inputs
  rw [foldl_extract_step]
  simp

/-! Claim theorems. -/

/-- C1: the live per-dimension continue condition of submit_answer is
false exactly when (se at most target_se and count at least
min_per_dimension) or count at least max_per_dimension, and it is true
whenever count is below min_per_dimension, whatever the se value. -/
theorem continue_predicate_characterization :
    (∀ (count : ℕ) (se : ℝ),
      ¬ dimension_needs_more count se ↔
        ((se ≤ irtParams.target_se ∧ irtParams.min_per_dimension ≤ count) ∨
          irtParams.max_per_dimension ≤ count)) ∧
    (∀ (count : ℕ) (se : ℝ),
      count < irtParams.min_per_dimension → dimension_needs_more count se) := by
  constructor
  · intro count se
    rw [not_dimension_needs_more_iff]
    constructor
    · rintro ⟨hmin, hse | hmax⟩
      · exact Or.inl ⟨hse, hmin⟩
      · exact Or.inr hmax
    · rintro (⟨hse, hmin⟩ | hmax)
      · exact ⟨hmin, Or.inl hse⟩
      · refine ⟨le_trans ?_ hmax, Or.inr hmax⟩
        norm_num [irtParams]
  · intro count se h
    exact Or.inl h

/-- Witness for C1 at count 3 and se 0. -/
theorem continue_predicate_characterization_witness :
    3 < irtParams.min_per_dimension ∧ dimension_needs_more 3 0 :=
  ⟨by norm_num [irtParams],
    continue_predicate_characterization.2 3 0 (by norm_num [irtParams])⟩

/-- C4: the ability estimator returns exactly the prior (0, 1) on the
empty response sequence, before any Newton-Raphson iteration runs. -/
theorem estimate_theta_empty (difficulties discriminations : List ℝ) :
    estimate_theta [] difficulties discriminations = (0, 1) := by
  simp [estimate_theta]

/-- C5: the estimator inputs built by the single pass of submit_answer
are exactly the per-record binary outcomes of the specification
(reverse-map via 6 - response when reverse scored, then binarize at the
threshold 4) together with the stored difficulties and discriminations,
and the theta stored by submit_answer_core is the estimate over those
lists. -/
theorem binarization_matches_spec :
    (∀ l : List AnsweredQuestion,
      extract_irt_inputs l =
        (l.map spec_binary_outcome,
          l.map (fun aq => aq.difficulty),
          l.map (fun aq => aq.discrimination))) ∧
    (∀ (s : Session) (q : GeneratedQuestion) (resp : ℤ),
      (submit_answer_core s q resp).theta s.current_dimension =
        (estimate_theta
          ((s.questions_answered s.current_dimension ++ [answered_record q resp]).map
            spec_binary_outcome)
          ((s.questions_answered s.current_dimension ++ [answered_record q resp]).map
            (fun aq => aq.difficulty))
          ((s.questions_answered s.current_dimension ++ [answered_record q resp]).map
            (fun aq => aq.discrimination))).1) := by
  constructor
  · exact extract_irt_inputs_eq_maps
  · intro s q resp
    show (updated_session s q resp).theta s.current_dimension = _
    simp only [updated_session]
    rw [Function.update_same, extract_irt_inputs_eq_maps]

/-- C10 (amended): the information function is total in the embedding
and strictly positive whenever the discrimination is nonzero. -/
theorem item_information_positive (theta b a : ℝ) (ha : a ≠ 0) :
    0 < calculate_item_information theta b a := by
  show 0 < a ^ 2 * (1 / (1 + Real.exp (-(a * (theta - b))))) *
    (1 - 1 / (1 + Real.exp (-(a * (theta - b)))))
  have hE : 0 < Real.exp (-(a * (theta - b))) := Real.exp_pos _
  have h1 : (0:ℝ) < 1 + Real.exp (-(a * (theta - b))) := by linarith
  have hp : 0 < 1 / (1 + Real.exp (-(a * (theta - b)))) := by positivity
  have hq : 1 / (1 + Real.exp (-(a * (theta - b)))) < 1 := by
    rw [div_lt_one h1]; linarith
  have ha2 : 0 < a ^ 2 := pow_two_pos_of_ne_zero ha
  exact mul_pos (mul_pos ha2 hp) (by linarith)

/-- Witness for C10 at theta 0, difficulty 0, discrimination 1. -/
theorem item_information_positive_witness :
    (1:ℝ) ≠ 0 ∧ 0 < calculate_item_information 0 0 1 :=
  ⟨one_ne_zero, item_information_positive 0 0 1 one_ne_zero⟩

/-- Counterexample for C10 as stated: at discrimination 0 the function
returns 0, not a strictly positive value. -/
theorem item_information_zero_discrimination :
    calculate_item_information 0 0 0 = 0 := by
  norm_num [calculate_item_information]

/-- The code completion condition and the spec-worded one agree. -/
lemma global_completion_iff_spec (s : Session) :
    global_completion s ↔ global_completion_spec s := by
  unfold global_completion global_completion_spec
  simp only [not_dimension_needs_more_iff]

/-- Status of a found submission: completed exactly when the completion
condition holds on the updated state, provided the session was not
already completed. -/
lemma submit_core_status_iff (s : Session) (q : GeneratedQuestion) (resp : ℤ)
    (h : s.status ≠ "completed") :
    (submit_answer_core s q resp).status = "completed" ↔
      global_completion (updated_session s q resp) := by
  show (if global_completion (updated_session s q resp) then "completed"
    else (updated_session s q resp).status) = "completed" ↔
      global_completion (updated_session s q resp)
  by_cases hgc : global_completion (updated_session s q resp)
  · rw [if_pos hgc]
    exact iff_of_true rfl hgc
  · rw [if_neg hgc]
    exact iff_of_false h hgc

/-- Every field of the session other than the current-dimension pointer
and the status is untouched by get_current_question, and the status is
either left alone or set to completed. -/
lemma get_current_question_state_fields (s : Session) :
    (get_current_question_state s).questions_answered = s.questions_answered ∧
    (get_current_question_state s).theta = s.theta ∧
    (get_current_question_state s).se = s.se ∧
    (get_current_question_state s).dimension_question_count = s.dimension_question_count ∧
    (get_current_question_state s).total_questions_answered = s.total_questions_answered ∧
    ((get_current_question_state s).status = s.status ∨
      (get_current_question_state s).status = "completed") := by
  unfold get_current_question_state
  split_ifs with h
  · cases hnd : next_dimension s.current_dimension
    · simp
    · simp
  · simp

/-- C2: after a successful submit_answer on a session that is not yet
completed, the status is completed exactly when the global completion
predicate of the specification holds on the resulting state. -/
theorem submit_answer_completion_iff (s : Session) (qid : String) (resp : ℤ)
    (s2 : Session) (hs : submit_answer s qid resp = some s2)
    (h : s.status ≠ "completed") :
    s2.status = "completed" ↔ global_completion_spec s2 := by
  unfold submit_answer at hs
  obtain ⟨q, _hfind, hq⟩ := Option.map_eq_some'.mp hs
  subst hq
  rw [← global_completion_iff_spec]
  exact submit_core_status_iff s q resp h

/-- Witness for C2 on the concrete session wSession. -/
theorem submit_answer_completion_iff_witness :
    submit_answer wSession "o1" 5 = some (submit_answer_core wSession wQ1 5) ∧
      wSession.status ≠ "completed" ∧
      ((submit_answer_core wSession wQ1 5).status = "completed" ↔
        global_completion_spec (submit_answer_core wSession wQ1 5)) :=
  ⟨rfl, by decide,
    submit_answer_completion_iff wSession "o1" 5 (submit_answer_core wSession wQ1 5)
      rfl (by decide)⟩

/-- Counterexample for C3 as stated: submit_answer accepts a submission
against an already completed session and mutates it (here the count and
the answered sequence of the current dimension grow). -/
theorem completed_session_still_mutated :
    compSession.status = "completed" ∧
      submit_answer compSession "o1" 5 = some (submit_answer_core compSession wQ1 5) ∧
      (submit_answer_core compSession wQ1 5).dimension_question_count Dimension.openness = 2 ∧
      compSession.dimension_question_count Dimension.openness = 1 := by
  refine ⟨rfl, rfl, ?_, rfl⟩
  decide

/-- C3 (amended): the status is never reset to active by either
endpoint (it is only ever preserved or set to completed), and
get_current_question leaves the response sequences, theta, se, counts
and the total counter unchanged; submit_answer, however, does mutate a
session even when it is already completed. -/
theorem completed_status_terminal_amended :
    (∀ (s : Session) (q : GeneratedQuestion) (resp : ℤ),
      (submit_answer_core s q resp).status = s.status ∨
        (submit_answer_core s q resp).status = "completed") ∧
    (∀ s : Session,
      (get_current_question_state s).status = s.status ∨
        (get_current_question_state s).status = "completed") ∧
    (∀ s : Session,
      (get_current_question_state s).questions_answered = s.questions_answered ∧
        (get_current_question_state s).theta = s.theta ∧
        (get_current_question_state s).se = s.se ∧
        (get_current_question_state s).dimension_question_count = s.dimension_question_count ∧
        (get_current_question_state s).total_questions_answered = s.total_questions_answered) := by
  refine ⟨?_, ?_, ?_⟩
  · intro s q resp
    by_cases hgc : global_completion (updated_session s q resp)
    · right
      show (if global_completion (updated_session s q resp) then "completed"
        else (updated_session s q resp).status) = "completed"
      rw [if_pos hgc]
    · left
      show (if global_completion (updated_session s q resp) then "completed"
        else (updated_session s q resp).status) = s.status
      rw [if_neg hgc]
      rfl
  · intro s
    exact (get_current_question_state_fields s).2.2.2.2.2
  · intro s
    obtain ⟨h1, h2, h3, h4, h5, _⟩ := get_current_question_state_fields s
    exact ⟨h1, h2, h3, h4, h5⟩

/-- Invariant of the fold implementing the Python min: either the seed
survives and is a lower bound of the traversed list, or the result sits
at a position of the list, is strictly below the seed key and every
earlier element, and is a lower bound of the whole list. -/
lemma foldl_pymin_spec {α : Type} (key : α → ℝ) :
    ∀ (xs : List α) (b : α),
      (xs.foldl (pymin_step key) b = b ∧ ∀ y ∈ xs, key b ≤ key y) ∨
      (∃ l1 l2, xs = l1 ++ (xs.foldl (pymin_step key) b) :: l2 ∧
        key (xs.foldl (pymin_step key) b) < key b ∧
        (∀ y ∈ xs, key (xs.foldl (pymin_step key) b) ≤ key y) ∧
        (∀ y ∈ l1, key (xs.foldl (pymin_step key) b) < key y)) := by
  intro xs
  induction xs with
  | nil =>
    intro b
    left
    simp
  | cons x xs ih =>
    intro b
    rw [List.foldl_cons]
    by_cases hx : key x < key b
    · have hstep : pymin_step key b x = x := if_pos hx
      rw [hstep]
      rcases ih x with ⟨heq, hmin⟩ | ⟨l1, l2, hsplit, hlt, hmin, hbefore⟩
      · right
        refine ⟨[], xs, by simp [heq], by rw [heq]; exact hx, ?_, by simp⟩
        intro y hy
        rw [heq]
        rcases List.mem_cons.mp hy with rfl | h2
        · exact le_rfl
        · exact hmin y h2
      · right
        refine ⟨x :: l1, l2, ?_, lt_trans hlt hx, ?_, ?_⟩
        · rw [List.cons_append, ← hsplit]
        · intro y hy
          rcases List.mem_cons.mp hy with rfl | h2
          · exact le_of_lt hlt
          · exact hmin y h2
        · intro y hy
          rcases List.mem_cons.mp hy with rfl | h2
          · exact hlt
          · exact hbefore y h2
    · have hstep : pymin_step key b x = b := if_neg hx
      rw [hstep]
      rcases ih b with ⟨heq, hmin⟩ | ⟨l1, l2, hsplit, hlt, hmin, hbefore⟩
      · left
        refine ⟨heq, ?_⟩
        intro y hy
        rcases List.mem_cons.mp hy with rfl | h2
        · exact not_lt.mp hx
        · exact hmin y h2
      · right
        refine ⟨x :: l1, l2, ?_, hlt, ?_, ?_⟩
        · rw [List.cons_append, ← hsplit]
        · intro y hy
          rcases List.mem_cons.mp hy with rfl | h2
          · exact le_trans (le_of_lt hlt) (not_lt.mp hx)
          · exact hmin y h2
        · intro y hy
          rcases List.mem_cons.mp hy with rfl | h2
          · exact lt_of_lt_of_le hlt (not_lt.mp hx)
          · exact hbefore y h2

/-- Characterisation of the Python min with a key function: the result
splits the list, its key is a lower bound of all keys, and every
element strictly before the result has a strictly larger key (so the
first minimum wins ties). -/
lemma pymin_by_spec {α : Type} (key : α → ℝ) (l : List α) (r : α)
    (h : pymin_by key l = some r) :
    ∃ l1 l2, l = l1 ++ r :: l2 ∧ (∀ y ∈ l, key r ≤ key y) ∧
      ∀ y ∈ l1, key r < key y := by
  cases l with
  | nil => exact absurd h (by simp [pymin_by])
  | cons x xs =>
    have hr : xs.foldl (pymin_step key) x = r := by
      simpa [pymin_by] using h
    rcases foldl_pymin_spec key xs x with ⟨heq, hmin⟩ | ⟨l1, l2, hsplit, hlt, hmin, hbefore⟩
    · rw [heq] at hr
      subst hr
      refine ⟨[], xs, by simp, ?_, by simp⟩
      intro y hy
      rcases List.mem_cons.mp hy with rfl | h2
      · exact le_rfl
      · exact hmin y h2
    · rw [hr] at hsplit hlt hmin hbefore
      refine ⟨x :: l1, l2, ?_, ?_, ?_⟩
      · rw [List.cons_append, ← hsplit]
      · intro y hy
        rcases List.mem_cons.mp hy with rfl | h2
        · exact le_of_lt hlt
        · exact hmin y h2
      · intro y hy
        rcases List.mem_cons.mp hy with rfl | h2
        · exact hlt
        · exact hbefore y h2

/-- Members of the remaining pool are not among the answered
identifiers of the current dimension. -/
lemma mem_available_not_answered (s : Session) (q : GeneratedQuestion)
    (h : q ∈ available_questions s) :
    q.question_id ∉ answered_ids s s.current_dimension := by
  unfold available_questions at h
  rw [List.mem_filter] at h
  simpa using h.2

/-- C6: with at least one answered question in the current dimension,
the selection branch of get_current_question returns an item of the
remaining pool whose difficulty minimises the distance to the current
theta, and every remaining item placed before it in pool order has a
strictly larger distance (ties go to the earliest item). -/
theorem adaptive_selection_closest_difficulty (s : Session) (q : GeneratedQuestion)
    (hans : answered_ids s s.current_dimension ≠ [])
    (h : adaptive_next_question s = some q) :
    ∃ l1 l2,
      available_questions s = l1 ++ q :: l2 ∧
        (∀ r ∈ available_questions s,
          |q.difficulty - s.theta s.current_dimension| ≤
            |r.difficulty - s.theta s.current_dimension|) ∧
        (∀ r ∈ l1,
          |q.difficulty - s.theta s.current_dimension| <
            |r.difficulty - s.theta s.current_dimension|) := by
  unfold adaptive_next_question at h
  exact pymin_by_spec _ _ _ h

/-- Witness for C6 on the concrete session wSession, whose remaining
pool is the single item wQ2. -/
theorem adaptive_selection_closest_difficulty_witness :
    (answered_ids wSession wSession.current_dimension ≠ [] ∧
      adaptive_next_question wSession = some wQ2) ∧
    ∃ l1 l2,
      available_questions wSession = l1 ++ wQ2 :: l2 ∧
        (∀ r ∈ available_questions wSession,
          |wQ2.difficulty - wSession.theta wSession.current_dimension| ≤
            |r.difficulty - wSession.theta wSession.current_dimension|) ∧
        (∀ r ∈ l1,
          |wQ2.difficulty - wSession.theta wSession.current_dimension| <
            |r.difficulty - wSession.theta wSession.current_dimension|) :=
  ⟨⟨by decide, rfl⟩,
    adaptive_selection_closest_difficulty wSession wQ2 (by decide) rfl⟩

/-- Counterexample for C7 as stated: submit_answer accepts a second
submission of an identifier that is already answered, after which that
identifier occurs twice in the response sequence of the dimension. -/
theorem duplicate_submission_counterexample :
    submit_answer wSession "o1" 5 = some (submit_answer_core wSession wQ1 5) ∧
      ((submit_answer_core wSession wQ1 5).questions_answered Dimension.openness).map
          (fun aq => aq.question_id) = ["o1", "o1"] ∧
      ¬ (((submit_answer_core wSession wQ1 5).questions_answered Dimension.openness).map
          (fun aq => aq.question_id)).Nodup := by
  refine ⟨rfl, ?_, ?_⟩ <;> decide

/-- The questions_answered component of the submit_answer update is a
pointwise update at the current dimension with the appended record. -/
lemma updated_session_questions_answered (s : Session) (q : GeneratedQuestion) (resp : ℤ) :
    (updated_session s q resp).questions_answered =
      Function.update s.questions_answered s.current_dimension
        (s.questions_answered s.current_dimension ++ [answered_record q resp]) := rfl

/-- C7 (amended): the item selector never returns an item whose
identifier is already answered — in the randomized first-item branch
every candidate is unanswered, and in the adaptive branch the selected
item is unanswered — and submissions of unanswered identifiers preserve
distinctness of every response sequence; submit_answer itself does not
reject an already answered identifier, so re-submission can create a
duplicate. -/
theorem no_readministration_amended :
    (∀ (s : Session) (q : GeneratedQuestion),
      q ∈ first_item_candidates s → q.question_id ∉ answered_ids s s.current_dimension) ∧
    (∀ (s : Session) (q : GeneratedQuestion),
      adaptive_next_question s = some q →
        q.question_id ∉ answered_ids s s.current_dimension) ∧
    (∀ (s : Session) (q : GeneratedQuestion) (resp : ℤ),
      q.question_id ∉ answered_ids s s.current_dimension →
      (∀ d, (answered_ids s d).Nodup) →
      ∀ d, (answered_ids (submit_answer_core s q resp) d).Nodup) := by
  refine ⟨?_, ?_, ?_⟩
  · intro s q hq
    apply mem_available_not_answered
    unfold first_item_candidates at hq
    by_cases hm : medium_questions (available_questions s) = []
    · rw [if_pos hm] at hq
      exact hq
    · rw [if_neg hm] at hq
      exact (List.mem_filter.mp hq).1
  · intro s q hq
    apply mem_available_not_answered
    unfold adaptive_next_question at hq
    obtain ⟨l1, l2, hsplit, -, -⟩ := pymin_by_spec _ _ _ hq
    rw [hsplit]
    exact List.mem_append.mpr (Or.inr (List.mem_cons_self _ _))
  · intro s q resp hq hnd d
    show (answered_ids (updated_session s q resp) d).Nodup
    unfold answered_ids
    rw [updated_session_questions_answered]
    rcases eq_or_ne d s.current_dimension with rfl | hne
    · rw [Function.update_same, List.map_append, List.nodup_append]
      refine ⟨hnd _, List.nodup_singleton _, ?_⟩
      intro a ha hb
      simp only [List.map_cons, List.map_nil, List.mem_singleton] at hb
      subst hb
      exact hq ha
    · rw [Function.update_noteq hne]
      exact hnd d

/-- The clamp always lands in the configured interval. -/
lemma clamp_theta_mem (x : ℝ) :
    clamp_theta x ∈ Set.Icc irtParams.min_theta irtParams.max_theta := by
  constructor
  · exact le_max_left _ _
  · apply max_le
    · norm_num [irtParams]
    · exact min_le_left _ _

/-- The Newton-Raphson loop never leaves the configured interval when
started inside it: converged and degenerate exits return the incoming
theta, and the recursive step re-enters with a clamped value. -/
lemma newton_loop_fst_mem (triples : List (ℕ × ℝ × ℝ)) :
    ∀ (n : ℕ) (theta lastF : ℝ),
      theta ∈ Set.Icc irtParams.min_theta irtParams.max_theta →
      (newton_loop triples n theta lastF).1 ∈
        Set.Icc irtParams.min_theta irtParams.max_theta := by
  intro n
  induction n with
  | zero =>
    intro theta lastF h
    simpa [newton_loop] using h
  | succ k ih =>
    intro theta lastF h
    rw [newton_loop]
    dsimp only
    split_ifs with hF hconv
    · exact h
    · exact ih _ _ (clamp_theta_mem _)
    · exact h

/-- Every theta produced by the estimator lies in the configured
interval. -/
lemma estimate_theta_fst_mem (responses : List ℕ) (difficulties discriminations : List ℝ) :
    (estimate_theta responses difficulties discriminations).1 ∈
      Set.Icc irtParams.min_theta irtParams.max_theta := by
  unfold estimate_theta
  split_ifs with h
  · constructor <;> norm_num [irtParams]
  · exact newton_loop_fst_mem _ 50 0 0 (by constructor <;> norm_num [irtParams])

/-- C8: the configured bounds are [-3, 3]; every theta returned by the
ability estimator lies in [min_theta, max_theta]; a fresh session starts
with every theta in the interval; a submission keeps every stored theta
in the interval whenever the incoming state satisfied it; and the
get_current_question endpoint never changes the stored thetas. -/
theorem theta_within_bounds :
    irtParams.min_theta = -3 ∧ irtParams.max_theta = 3 ∧
    (∀ (responses : List ℕ) (difficulties discriminations : List ℝ),
      (estimate_theta responses difficulties discriminations).1 ∈
        Set.Icc irtParams.min_theta irtParams.max_theta) ∧
    (∀ (pools : Dimension → List GeneratedQuestion) (d : Dimension),
      (create_session_state pools).theta d ∈
        Set.Icc irtParams.min_theta irtParams.max_theta) ∧
    (∀ (s : Session) (q : GeneratedQuestion) (resp : ℤ),
      (∀ d2, s.theta d2 ∈ Set.Icc irtParams.min_theta irtParams.max_theta) →
      ∀ d, (submit_answer_core s q resp).theta d ∈
        Set.Icc irtParams.min_theta irtParams.max_theta) ∧
    (∀ s : Session, (get_current_question_state s).theta = s.theta) := by
  refine ⟨rfl, rfl, estimate_theta_fst_mem, ?_, ?_, ?_⟩
  · intro pools d
    constructor <;> norm_num [create_session_state, irtParams]
  · intro s q resp hall d
    show Function.update s.theta s.current_dimension
      (estimate_theta (extract_irt_inputs
          (s.questions_answered s.current_dimension ++ [answered_record q resp])).1
        (extract_irt_inputs
          (s.questions_answered s.current_dimension ++ [answered_record q resp])).2.1
        (extract_irt_inputs
          (s.questions_answered s.current_dimension ++ [answered_record q resp])).2.2).1 d ∈
      Set.Icc irtParams.min_theta irtParams.max_theta
    rcases eq_or_ne d s.current_dimension with rfl | hne
    · rw [Function.update_same]
      exact estimate_theta_fst_mem _ _ _
    · rw [Function.update_noteq hne]
      exact hall d
  · intro s
    exact (get_current_question_state_fields s).2.1

/-- Witness for C8 on the concrete session wSession, whose thetas are
all 0. -/
theorem theta_within_bounds_witness :
    (∀ d2, wSession.theta d2 ∈ Set.Icc irtParams.min_theta irtParams.max_theta) ∧
      (submit_answer_core wSession wQ2 5).theta Dimension.openness ∈
        Set.Icc irtParams.min_theta irtParams.max_theta := by
  have hall : ∀ d2, wSession.theta d2 ∈ Set.Icc irtParams.min_theta irtParams.max_theta := by
    intro d2
    show (0:ℝ) ∈ Set.Icc irtParams.min_theta irtParams.max_theta
    constructor <;> norm_num [irtParams]
  exact ⟨hall, theta_within_bounds.2.2.2.2.1 wSession wQ2 5 hall Dimension.openness⟩

/-- The information function factors through the logistic kernel at
z = a (theta - b). -/
lemma info_eq_kernel (theta b a : ℝ) :
    calculate_item_information theta b a = a ^ 2 * logistic_kernel (a * (theta - b)) := by
  show a ^ 2 * (1 / (1 + Real.exp (-(a * (theta - b))))) *
      (1 - 1 / (1 + Real.exp (-(a * (theta - b))))) =
    a ^ 2 * (Real.exp (-(a * (theta - b))) / (1 + Real.exp (-(a * (theta - b)))) ^ 2)
  have h1 : (0:ℝ) < 1 + Real.exp (-(a * (theta - b))) := by positivity
  field_simp
  ring_nf
  exact Or.inl trivial

/-- Value of the kernel at zero. -/
lemma logistic_kernel_zero : logistic_kernel 0 = 1 / 4 := by
  rw [logistic_kernel]
  norm_num [Real.exp_zero]

/-- The kernel is even. -/
lemma logistic_kernel_neg (z : ℝ) : logistic_kernel (-z) = logistic_kernel z := by
  unfold logistic_kernel
  rw [neg_neg]
  have h1 : Real.exp z * Real.exp (-z) = 1 := by
    rw [Real.exp_neg]
    exact mul_inv_cancel₀ (Real.exp_ne_zero z)
  have h2 : (0:ℝ) < 1 + Real.exp (-z) := by positivity
  have h3 : (0:ℝ) < 1 + Real.exp z := by positivity
  field_simp
  nlinarith [h1, Real.exp_pos z, Real.exp_pos (-z)]

/-- The kernel depends only on the absolute value of its argument. -/
lemma logistic_kernel_abs (z : ℝ) : logistic_kernel |z| = logistic_kernel z := by
  rcases abs_cases z with ⟨h, _⟩ | ⟨h, _⟩
  · rw [h]
  · rw [h, logistic_kernel_neg]

/-- The kernel is strictly decreasing on the nonnegative half line. -/
lemma logistic_kernel_strict_anti {u v : ℝ} (hu : 0 ≤ u) (huv : u < v) :
    logistic_kernel v < logistic_kernel u := by
  unfold logistic_kernel
  have hEupos : 0 < Real.exp (-u) := Real.exp_pos _
  have hEvpos : 0 < Real.exp (-v) := Real.exp_pos _
  have hlt : Real.exp (-v) < Real.exp (-u) := Real.exp_lt_exp.mpr (by linarith)
  have hEu1 : Real.exp (-u) ≤ 1 := Real.exp_le_one_iff.mpr (by linarith)
  have hprod : Real.exp (-v) * Real.exp (-u) < 1 := by nlinarith
  rw [div_lt_div_iff₀ (by positivity) (by positivity)]
  nlinarith [mul_pos (sub_pos.mpr hlt) (sub_pos.mpr hprod)]

/-- Away from zero the kernel sits strictly below its peak value. -/
lemma logistic_kernel_lt_peak {z : ℝ} (hz : z ≠ 0) : logistic_kernel z < 1 / 4 := by
  rw [← logistic_kernel_abs, ← logistic_kernel_zero]
  exact logistic_kernel_strict_anti le_rfl (abs_pos.mpr hz)

/-- C9: for a fixed positive discrimination the item information equals
the peak a^2 / 4 at theta = b, is strictly below the peak anywhere
else, and strictly decreases as the distance |theta - b| grows. -/
theorem item_information_peak_and_decay (b a : ℝ) (ha : 0 < a) :
    calculate_item_information b b a = a ^ 2 / 4 ∧
    (∀ theta, theta ≠ b → calculate_item_information theta b a < a ^ 2 / 4) ∧
    (∀ theta1 theta2, |theta1 - b| < |theta2 - b| →
      calculate_item_information theta2 b a < calculate_item_information theta1 b a) := by
  have ha2 : 0 < a ^ 2 := pow_two_pos_of_ne_zero ha.ne'
  refine ⟨?_, ?_, ?_⟩
  · rw [info_eq_kernel, sub_self, mul_zero, logistic_kernel_zero]
    ring
  · intro theta hθ
    rw [info_eq_kernel]
    have hz : a * (theta - b) ≠ 0 := mul_ne_zero ha.ne' (sub_ne_zero.mpr hθ)
    have hk := logistic_kernel_lt_peak hz
    have := mul_lt_mul_of_pos_left hk ha2
    linarith [this]
  · intro theta1 theta2 hlt
    rw [info_eq_kernel, info_eq_kernel]
    have habs1 : |a * (theta1 - b)| = a * |theta1 - b| := by
      rw [abs_mul, abs_of_pos ha]
    have habs2 : |a * (theta2 - b)| = a * |theta2 - b| := by
      rw [abs_mul, abs_of_pos ha]
    have hzlt : |a * (theta1 - b)| < |a * (theta2 - b)| := by
      rw [habs1, habs2]
      exact (mul_lt_mul_left ha).mpr hlt
    have hk : logistic_kernel (a * (theta2 - b)) < logistic_kernel (a * (theta1 - b)) := by
      rw [← logistic_kernel_abs (a * (theta2 - b)), ← logistic_kernel_abs (a * (theta1 - b))]
      exact logistic_kernel_strict_anti (abs_nonneg _) hzlt
    exact mul_lt_mul_of_pos_left hk ha2

/-- Witness for C9 at difficulty 0 and discrimination 1. -/
theorem item_information_peak_and_decay_witness :
    (0:ℝ) < 1 ∧ calculate_item_information 0 0 1 = 1 ^ 2 / 4 :=
  ⟨one_pos, (item_information_peak_and_decay 0 1 one_pos).1⟩

/-- Witness for C7 on the concrete session wSession: the adaptive
branch picks the unanswered wQ2, and submitting it keeps every response
sequence duplicate free. -/
theorem no_readministration_amended_witness :
    (adaptive_next_question wSession = some wQ2 ∧
      wQ2.question_id ∉ answered_ids wSession wSession.current_dimension) ∧
    (wQ2.question_id ∉ answered_ids wSession wSession.current_dimension ∧
      (∀ d, (answered_ids wSession d).Nodup) ∧
      ∀ d, (answered_ids (submit_answer_core wSession wQ2 5) d).Nodup) := by
  have hnd : ∀ d, (answered_ids wSession d).Nodup := by decide
  exact ⟨⟨rfl, no_readministration_amended.2.1 wSession wQ2 rfl⟩,
    ⟨by decide, hnd, no_readministration_amended.2.2 wSession wQ2 5 (by decide) hnd⟩⟩
